import Mathlib

/-!
Shallow embedding of `src/image_analyzer.py` (class `ImageAnalyzer`), the single
source file of the repository, together with proofs of the specification's
claims about it.

Modelling choices:
* Pixel values and means are exact rationals; `numpy`'s NaN (the mean of an
  empty slice) is modelled by the extra constructor `FVal.nan`, with the
  IEEE-like propagation the code relies on: arithmetic on NaN yields NaN and
  any `<` comparison with NaN is false.
* The Tk canvas is not modelled; canvas object ids are modelled by a fresh
  counter (`next_canvas_id`), since the code only uses ids for identity
  (`reference_rect_id`, lookup of the reference rectangle).
* GUI label/text rendering is modelled by the list of per-region results that
  `update_averages` produces (`RegionResult`), one entry per non-reference
  rectangle, exactly mirroring the loop of lines 164-190: `mean` is the value
  printed, `reference_diff` the printed diff, `classification` the
  MATCH/MISMATCH marker drawn on the canvas.
* Pointer coordinates are integers: Tk events carry integer pixel positions
  and the canvas is never scrolled, so `canvasx`/`canvasy` return them
  unchanged and the `int(...)` casts in `update_averages` are identities.
-/

/-- A floating-point-like value: either NaN or an exact rational. Models the
`float` results of `np.mean` and the arithmetic done on them in
`update_averages`. -/
inductive FVal where
  | nan : FVal
  | val : ℚ → FVal
deriving DecidableEq

/-- Subtraction with NaN propagation (models Python float subtraction). -/
def fsub : FVal → FVal → FVal
  | FVal.val a, FVal.val b => FVal.val (a - b)
  | _, _ => FVal.nan

/-- Absolute value with NaN propagation (models Python `abs` on floats). -/
def fabs : FVal → FVal
  | FVal.val a => FVal.val |a|
  | FVal.nan => FVal.nan

/-- Strict comparison against a rational constant: any comparison with NaN is
false (models IEEE `<` as used in `if diff < 3:`). -/
def flt : FVal → ℚ → Bool
  | FVal.val a, c => decide (a < c)
  | FVal.nan, _ => false

/-- The loaded image as `np.array(self.image)` sees it: a height x width grid
with `channels` samples per pixel (1 for grayscale, 3 for RGB, ...).
`pixel y x c` is the sample at row `y`, column `x`, channel `c`. -/
structure PixelImage where
  height : Nat
  width : Nat
  channels : Nat
  pixel : Nat → Nat → Nat → ℚ

/-- Sum of all samples of the sub-grid `img_array[y1:y2, x1:x2]` (flattened
across channels), for already-clamped natural bounds. -/
def slice_sum (img : PixelImage) (y1 y2 x1 x2 : Nat) : ℚ :=
  ((List.range' y1 (y2 - y1)).map (fun y =>
    ((List.range' x1 (x2 - x1)).map (fun x =>
      ((List.range img.channels).map (fun c => img.pixel y x c)).sum)).sum)).sum

/-- Model of `np.mean` over `count` samples summing to `total`: NaN when the slice is
empty, the arithmetic mean otherwise. -/
def np_mean (count : Nat) (total : ℚ) : FVal :=
  if count = 0 then FVal.nan else FVal.val (total / count)

/-- Mean of one rectangle, exactly as lines 170-175 (and the identical
reference computation in lines 153-156) of `image_analyzer.py`:
`x1, y1 = max(0, int(x1)), max(0, int(y1))`,
`x2, y2 = min(img_array.shape[1], int(x2)), min(img_array.shape[0], int(y2))`,
`region = img_array[y1:y2, x1:x2]`, `np.mean(region)`. -/
def region_mean (img : PixelImage) (x1 y1 x2 y2 : Int) : FVal :=
  let x1n : Nat := (max 0 x1).toNat
  let y1n : Nat := (max 0 y1).toNat
  let x2n : Nat := (min (img.width : Int) x2).toNat
  let y2n : Nat := (min (img.height : Int) y2).toNat
  np_mean ((y2n - y1n) * (x2n - x1n) * img.channels)
    (slice_sum img y1n y2n x1n x2n)

/-- The whole-array mean `np.mean(img_array)`: every sample of the image,
flattened across channels. -/
def whole_image_mean (img : PixelImage) : FVal :=
  np_mean (img.height * img.width * img.channels)
    (slice_sum img 0 img.height 0 img.width)

/-- The clamping of region bounds to the image extent, written as the spec
states it: `x1' = max(0,x1), y1' = max(0,y1), x2' = min(W,x2), y2' = min(H,y2)`. -/
def clamp_spec (W H : Nat) (x1 y1 x2 y2 : Int) : Int × Int × Int × Int :=
  (max 0 x1, max 0 y1, min (W : Int) x2, min (H : Int) y2)

/-- The MATCH/MISMATCH marker: `"свободно"` (MATCH) or `"занято"` (MISMATCH)
drawn near a non-reference region. -/
inductive Classification where
  | MATCH : Classification
  | MISMATCH : Classification
deriving DecidableEq

/-- The analysis result displayed for one non-reference rectangle. -/
structure RegionResult where
  mean : FVal
  reference_diff : Option FVal
  classification : Option Classification
deriving DecidableEq

/-- Builds the result for one non-reference rectangle from its mean and the
current reference average, as lines 178-188 of `image_analyzer.py`: when a
reference average exists (`is not None`), `diff = abs(avg_value -
self.reference_avg)` and the marker is MATCH exactly when `diff < 3`. -/
def mk_result (avg : FVal) (ref : Option FVal) : RegionResult :=
  match ref with
  | some ra =>
    let diff := fabs (fsub avg ra)
    { mean := avg
      reference_diff := some diff
      classification :=
        some (if flt diff 3 then Classification.MATCH else Classification.MISMATCH) }
  | none => { mean := avg, reference_diff := none, classification := none }

/-- One stored rectangle: the tuple
`(x1, y1, x2, y2, color, canvas_id)` appended in `on_release`. -/
structure Rect where
  x1 : Int
  y1 : Int
  x2 : Int
  y2 : Int
  color : String
  canvas_id : Nat
deriving DecidableEq

/-- The rotating color list `self.colors`. -/
def colors : List String := ["red", "blue", "green", "yellow", "purple"]

/-- The mutable state of the `ImageAnalyzer` application (its non-GUI
fields). -/
structure ImageAnalyzer where
  image : Option PixelImage
  rectangles : List Rect
  current_rect : Option Nat
  start_x : Option Int
  start_y : Option Int
  current_color_index : Nat
  reference_rect_id : Option Nat
  reference_avg : Option FVal
  next_canvas_id : Nat

/-- The state right after `__init__`. -/
def init_state : ImageAnalyzer :=
  { image := none
    rectangles := []
    current_rect := none
    start_x := none
    start_y := none
    current_color_index := 0
    reference_rect_id := none
    reference_avg := none
    next_canvas_id := 1 }

/-- The reference average after one `update_averages` pass with image `img`
(lines 149-156): if a reference rectangle id is set and the rectangle is
found, its region mean; otherwise `self.reference_avg` is left unchanged. -/
def compute_ref_avg (img : PixelImage) (s : ImageAnalyzer) : Option FVal :=
  match s.reference_rect_id with
  | none => s.reference_avg
  | some rid =>
    match s.rectangles.find? (fun r => r.canvas_id == rid) with
    | none => s.reference_avg
    | some r => some (region_mean img r.x1 r.y1 r.x2 r.y2)

/-- The value of `self.reference_avg` after `update_averages` returns:
unchanged when there is no image or no rectangles (early return at lines
142-143), otherwise recomputed per `compute_ref_avg`. -/
def new_reference_avg (s : ImageAnalyzer) : Option FVal :=
  match s.image with
  | none => s.reference_avg
  | some img =>
    if s.rectangles.isEmpty then s.reference_avg else compute_ref_avg img s

/-- The per-region results produced by one `update_averages` pass: empty on
the early return (no image or no rectangles), otherwise one entry per
rectangle other than the reference (the loop of lines 164-190, which skips
`canvas_id == self.reference_rect_id`). -/
def results_list (s : ImageAnalyzer) : List RegionResult :=
  match s.image with
  | none => []
  | some img =>
    if s.rectangles.isEmpty then []
    else
      let ra := compute_ref_avg img s
      (s.rectangles.filter (fun r => !(some r.canvas_id == s.reference_rect_id))).map
        (fun r => mk_result (region_mean img r.x1 r.y1 r.x2 r.y2) ra)

/-- Method `update_averages` of the class: returns the updated state together with the displayed
per-region results. -/
def update_averages (s : ImageAnalyzer) : ImageAnalyzer × List RegionResult :=
  ({ s with reference_avg := new_reference_avg s }, results_list s)

/-- Handler `clear_rectangles` (lines 125-134): empties the store, resets the
reference id and average, then calls `update_averages`. -/
def clear_rectangles (s : ImageAnalyzer) : ImageAnalyzer × List RegionResult :=
  update_averages
    { s with rectangles := [], reference_rect_id := none, reference_avg := none }

/-- Handler `load_image` (lines 65-75) after a successful file selection: installs the
new image and calls `clear_rectangles`. -/
def load_image (img : PixelImage) (s : ImageAnalyzer) : ImageAnalyzer × List RegionResult :=
  clear_rectangles { s with image := some img }

/-- Handler `on_press` (lines 77-86): records the drag start point and creates a fresh
canvas rectangle, which becomes `self.current_rect`. -/
def on_press (x y : Int) (s : ImageAnalyzer) : ImageAnalyzer :=
  { s with
    start_x := some x
    start_y := some y
    current_rect := some s.next_canvas_id
    next_canvas_id := s.next_canvas_id + 1 }

/-- Handler `on_release` (lines 95-123): if a drag is in progress, appends the
finished rectangle with sorted corners (`min`/`max` of press and release
points), makes it the reference when the store was empty, runs
`update_averages`, and advances the color index. -/
def on_release (x y : Int) (s : ImageAnalyzer) : ImageAnalyzer × List RegionResult :=
  match s.current_rect with
  | none => (s, [])
  | some cid =>
    let sx := s.start_x.getD 0
    let sy := s.start_y.getD 0
    let new_rect : Rect :=
      { x1 := min sx x
        y1 := min sy y
        x2 := max sx x
        y2 := max sy y
        color := colors.getD s.current_color_index ""
        canvas_id := cid }
    let s1 : ImageAnalyzer :=
      { s with
        rectangles := s.rectangles ++ [new_rect]
        reference_rect_id :=
          if s.rectangles.isEmpty then some cid else s.reference_rect_id
        current_rect := none }
    let p := update_averages s1
    ({ p.1 with current_color_index := (p.1.current_color_index + 1) % colors.length },
      p.2)

/-- States reachable from `__init__` through the event handlers. -/
inductive Reachable : ImageAnalyzer → Prop
  | init : Reachable init_state
  | press (s : ImageAnalyzer) (x y : Int) : Reachable s → Reachable (on_press x y s)
  | release (s : ImageAnalyzer) (x y : Int) :
      Reachable s → Reachable (on_release x y s).1
  | clear (s : ImageAnalyzer) : Reachable s → Reachable (clear_rectangles s).1
  | load (s : ImageAnalyzer) (img : PixelImage) :
      Reachable s → Reachable (load_image img s).1

/-- The spec's 4x4 test image: columns 0-1 hold value 0, columns 2-3 hold
value 10, one channel. -/
def test_image : PixelImage :=
  { height := 4
    width := 4
    channels := 1
    pixel := fun _ x _ => if x < 2 then 0 else 10 }

example : region_mean test_image 0 0 2 4 = FVal.val 0 := by
  simp [region_mean, np_mean, slice_sum, test_image, List.range'_succ, List.range_succ]
example : region_mean test_image 2 0 4 4 = FVal.val 10 := by
  simp [region_mean, np_mean, slice_sum, test_image, List.range'_succ, List.range_succ]
  norm_num
example : region_mean test_image (-1) (-2) 10 9 = FVal.val 5 := by
  simp [region_mean, np_mean, slice_sum, test_image, List.range'_succ, List.range_succ]
  norm_num
example : region_mean test_image 5 5 6 6 = FVal.nan := by
  simp [region_mean, np_mean, slice_sum, test_image, List.range'_succ, List.range_succ]
example : whole_image_mean test_image = FVal.val 5 := by
  simp [whole_image_mean, np_mean, slice_sum, test_image, List.range'_succ, List.range_succ]
  norm_num

/-- The structural invariant maintained by the event handlers: every stored
rectangle has a canvas id below the fresh-id counter and sorted corners,
stored canvas ids are pairwise distinct, and a drag in progress holds a
canvas id that is fresh with respect to the store. -/
def StateInv (s : ImageAnalyzer) : Prop :=
  (∀ r ∈ s.rectangles, r.canvas_id < s.next_canvas_id ∧ r.x1 ≤ r.x2 ∧ r.y1 ≤ r.y2) ∧
  s.rectangles.Pairwise (fun a b => a.canvas_id ≠ b.canvas_id) ∧
  (∀ cid : Nat, s.current_rect = some cid →
    cid < s.next_canvas_id ∧ ∀ r ∈ s.rectangles, r.canvas_id ≠ cid)

theorem inv_init_state : StateInv init_state := by
  refine ⟨?_, ?_, ?_⟩ <;> simp [StateInv, init_state]

theorem inv_on_press (s : ImageAnalyzer) (x y : Int) (h : StateInv s) :
    StateInv (on_press x y s) := by
  obtain ⟨h1, h2, h3⟩ := h
  refine ⟨?_, h2, ?_⟩
  · intro r hr
    obtain ⟨hlt, hx, hy⟩ := h1 r hr
    exact ⟨Nat.lt_succ_of_lt hlt, hx, hy⟩
  · intro cid hc
    have hcid : cid = s.next_canvas_id := by
      simpa [on_press] using hc.symm
    subst hcid
    refine ⟨Nat.lt_succ_self _, ?_⟩
    intro r hr
    exact Nat.ne_of_lt (h1 r hr).1

theorem inv_update_averages (s : ImageAnalyzer) (h : StateInv s) :
    StateInv (update_averages s).1 := h

theorem inv_clear_rectangles (s : ImageAnalyzer) (h : StateInv s) :
    StateInv (clear_rectangles s).1 := by
  refine ⟨?_, ?_, ?_⟩
  · intro r hr
    simp [clear_rectangles, update_averages] at hr
  · simp [clear_rectangles, update_averages]
  · intro cid hc
    have : s.current_rect = some cid := hc
    exact ⟨(h.2.2 cid this).1, by intro r hr; simp [clear_rectangles, update_averages] at hr⟩

theorem inv_load_image (s : ImageAnalyzer) (img : PixelImage) (h : StateInv s) :
    StateInv (load_image img s).1 :=
  inv_clear_rectangles { s with image := some img } h

theorem inv_on_release (s : ImageAnalyzer) (x y : Int) (h : StateInv s) :
    StateInv (on_release x y s).1 := by
  obtain ⟨h1, h2, h3⟩ := h
  cases hcr : s.current_rect with
  | none =>
    simp only [on_release, hcr]
    exact ⟨h1, h2, h3⟩
  | some cid =>
    obtain ⟨hlt, hfresh⟩ := h3 cid hcr
    simp only [on_release, hcr]
    refine ⟨?_, ?_, ?_⟩
    · intro r hr
      simp only [update_averages] at hr
      rcases List.mem_append.mp hr with hr | hr
      · exact h1 r hr
      · rcases List.mem_singleton.mp hr with rfl
        exact ⟨hlt, min_le_max, min_le_max⟩
    · simp only [update_averages]
      rw [List.pairwise_append]
      refine ⟨h2, List.pairwise_singleton _ _, ?_⟩
      intro a ha b hb
      rcases List.mem_singleton.mp hb with rfl
      exact hfresh a ha
    · intro cid' hc'
      simp only [update_averages] at hc'
      cases hc'

theorem reachable_inv (s : ImageAnalyzer) (h : Reachable s) : StateInv s := by
  induction h with
  | init => exact inv_init_state
  | press s x y _ ih => exact inv_on_press s x y ih
  | release s x y _ ih => exact inv_on_release s x y ih
  | clear s _ ih => exact inv_clear_rectangles s ih
  | load s img _ ih => exact inv_load_image s img ih

theorem filter_id_length_le_one (l : List Rect)
    (hl : l.Pairwise (fun a b => a.canvas_id ≠ b.canvas_id)) (o : Option Nat) :
    (l.filter (fun r => o == some r.canvas_id)).length ≤ 1 := by
  induction l with
  | nil => simp
  | cons a t ih =>
    rw [List.pairwise_cons] at hl
    obtain ⟨ha, ht⟩ := hl
    by_cases hoa : o == some a.canvas_id
    · have ho : o = some a.canvas_id := by simpa using hoa
      have hfa : t.filter (fun r => o == some r.canvas_id) = [] := by
        rw [List.filter_eq_nil]
        intro b hb
        simp only [ho, beq_iff_eq, Option.some.injEq]
        exact fun hba => ha b hb hba
      simp [List.filter_cons, hoa, hfa]
    · simp only [List.filter_cons, hoa, if_neg]
      simpa using ih ht

/-- C1: for any loaded image and a single region whose bounds cover the entire
image, the computed mean equals the arithmetic mean of every pixel value in
the image, flattened across all channels (whole-array mean, not
per-channel). -/
theorem full_region_is_whole_mean (img : PixelImage) (x1 y1 x2 y2 : Int)
    (hx1 : x1 ≤ 0) (hy1 : y1 ≤ 0)
    (hx2 : (img.width : Int) ≤ x2) (hy2 : (img.height : Int) ≤ y2)
    (hpos : 0 < img.height * img.width * img.channels) :
    region_mean img x1 y1 x2 y2 = whole_image_mean img ∧
    whole_image_mean img =
      FVal.val (slice_sum img 0 img.height 0 img.width /
        ((img.height * img.width * img.channels : Nat) : ℚ)) := by
  have e1 : max (0 : Int) x1 = 0 := max_eq_left hx1
  have e2 : max (0 : Int) y1 = 0 := max_eq_left hy1
  have e3 : min ((img.width : Int)) x2 = (img.width : Int) := min_eq_left hx2
  have e4 : min ((img.height : Int)) y2 = (img.height : Int) := min_eq_left hy2
  constructor
  · unfold region_mean whole_image_mean
    rw [e1, e2, e3, e4]
    simp
  · unfold whole_image_mean np_mean
    rw [if_neg (Nat.pos_iff_ne_zero.mp hpos)]

/-- Witness for C1 on the spec's 4x4 test image with bounds spilling past the
image on every side. -/
theorem full_region_is_whole_mean_witness :
    region_mean test_image (-1) (-3) 10 9 = whole_image_mean test_image ∧
    whole_image_mean test_image =
      FVal.val (slice_sum test_image 0 test_image.height 0 test_image.width /
        ((test_image.height * test_image.width * test_image.channels : Nat) : ℚ)) :=
  full_region_is_whole_mean test_image (-1) (-3) 10 9
    (by decide) (by decide) (by decide) (by decide) (by decide)

/-- C2: with a defined region mean and reference mean, the classification is
MATCH exactly when the absolute difference is strictly below the fixed
threshold 3, and a difference of exactly 3 is classified MISMATCH. -/
theorem match_iff_diff_lt_three (m r : ℚ) :
    ((mk_result (FVal.val m) (some (FVal.val r))).classification
        = some Classification.MATCH ↔ |m - r| < 3) ∧
    ((mk_result (FVal.val m) (some (FVal.val r))).classification
        = some Classification.MISMATCH ↔ ¬ |m - r| < 3) ∧
    (|m - r| = 3 →
      (mk_result (FVal.val m) (some (FVal.val r))).classification
        = some Classification.MISMATCH) := by
  by_cases h : |m - r| < 3
  · refine ⟨by simp [mk_result, fsub, fabs, flt, h], by simp [mk_result, fsub, fabs, flt, h], ?_⟩
    intro he
    rw [he] at h
    exact absurd h (lt_irrefl 3)
  · exact ⟨by simp [mk_result, fsub, fabs, flt, h],
      by simp [mk_result, fsub, fabs, flt, h],
      fun _ => by simp [mk_result, fsub, fabs, flt, h]⟩

/-- Witness for C2: a difference of exactly 3 (means 3 and 0) is MISMATCH. -/
theorem match_iff_diff_lt_three_witness :
    (mk_result (FVal.val 3) (some (FVal.val 0))).classification
      = some Classification.MISMATCH :=
  (match_iff_diff_lt_three 3 0).2.2 (by norm_num)

/-- C3: the reported diff of a non-reference region is the absolute value of
the difference of the means, hence symmetric in the two means; on defined
means it is exactly `|mean - referenceMean|`. -/
theorem reference_diff_is_abs (a b : FVal) :
    (mk_result a (some b)).reference_diff = some (fabs (fsub a b)) ∧
    fabs (fsub a b) = fabs (fsub b a) ∧
    (∀ m r : ℚ, fabs (fsub (FVal.val m) (FVal.val r)) = FVal.val |m - r|) := by
  refine ⟨rfl, ?_, fun m r => rfl⟩
  cases a <;> cases b <;> simp [fsub, fabs, abs_sub_comm]

/-- C4: a region whose clamped bounds give a zero-width or zero-height slice
has mean NaN; `region_mean` is a total function, so no exception is raised. -/
theorem empty_slice_mean_nan (img : PixelImage) (x1 y1 x2 y2 : Int)
    (h : min ((img.width : Int)) x2 ≤ max 0 x1 ∨
      min ((img.height : Int)) y2 ≤ max 0 y1) :
    region_mean img x1 y1 x2 y2 = FVal.nan := by
  unfold region_mean np_mean
  rcases h with h | h
  · have hw : (min ((img.width : Int)) x2).toNat - (max (0:Int) x1).toNat = 0 :=
      Nat.sub_eq_zero_of_le (Int.toNat_le_toNat h)
    simp [hw]
  · have hh : (min ((img.height : Int)) y2).toNat - (max (0:Int) y1).toNat = 0 :=
      Nat.sub_eq_zero_of_le (Int.toNat_le_toNat h)
    simp [hh]

/-- Witness for C4: the spec's region `(5,5,6,6)` on the 4x4 test image is
empty after clamping and reports NaN. -/
theorem empty_slice_mean_nan_witness :
    region_mean test_image 5 5 6 6 = FVal.nan :=
  empty_slice_mean_nan test_image 5 5 6 6 (Or.inl (by decide))

/-- C5: the aggregation clamps exactly as the spec's formula
`x1' = max(0,x1), y1' = max(0,y1), x2' = min(W,x2), y2' = min(H,y2)` states:
running the source computation on the spec-clamped bounds yields the same
result, so out-of-range bounds are recovered by clamping, never surfaced as
errors (the computation is total). -/
theorem bounds_clamped_per_spec (img : PixelImage) (x1 y1 x2 y2 : Int) :
    region_mean img x1 y1 x2 y2 =
      region_mean img (clamp_spec img.width img.height x1 y1 x2 y2).1
        (clamp_spec img.width img.height x1 y1 x2 y2).2.1
        (clamp_spec img.width img.height x1 y1 x2 y2).2.2.1
        (clamp_spec img.width img.height x1 y1 x2 y2).2.2.2 := by
  have e1 : max (0:Int) (max 0 x1) = max 0 x1 := by rw [← max_assoc, max_self]
  have e2 : max (0:Int) (max 0 y1) = max 0 y1 := by rw [← max_assoc, max_self]
  have e3 : min ((img.width : Int)) (min (img.width : Int) x2) = min (img.width : Int) x2 := by
    rw [← min_assoc, min_self]
  have e4 : min ((img.height : Int)) (min (img.height : Int) y2) = min (img.height : Int) y2 := by
    rw [← min_assoc, min_self]
  simp only [region_mean, clamp_spec, e1, e2, e3, e4]

/-- C7: a successful image load forces a clear: afterwards the store is empty
and the reference designation (id and cached average) is reset, with the new
image installed. -/
theorem load_image_forces_clear (img : PixelImage) (s : ImageAnalyzer) :
    (load_image img s).1.image = some img ∧
    (load_image img s).1.rectangles = [] ∧
    (load_image img s).1.reference_rect_id = none ∧
    (load_image img s).1.reference_avg = none :=
  ⟨rfl, rfl, rfl, rfl⟩

/-- C8: an aggregation request before any image is loaded leaves the state
unchanged and produces an empty result set; it is not an error. -/
theorem no_image_empty_results (s : ImageAnalyzer) (h : s.image = none) :
    update_averages s = (s, []) := by
  simp [update_averages, new_reference_avg, results_list, h]
  rw [← h]

/-- Witness for C8 at the initial state, which has no image. -/
theorem no_image_empty_results_witness :
    update_averages init_state = (init_state, []) :=
  no_image_empty_results init_state rfl

/-- C10: if the region's own mean or the reference mean is NaN (empty slice
after clamping), the comparison diff is NaN and the classification is
MISMATCH, never MATCH: the undefined case is folded into the MISMATCH branch
rather than omitted. -/
theorem nan_comparison_mismatch (m ra : FVal)
    (h : m = FVal.nan ∨ ra = FVal.nan) :
    (mk_result m (some ra)).reference_diff = some FVal.nan ∧
    (mk_result m (some ra)).classification = some Classification.MISMATCH := by
  rcases h with h | h
  · subst h
    cases ra <;> simp [mk_result, fsub, fabs, flt]
  · subst h
    cases m <;> simp [mk_result, fsub, fabs, flt]

/-- Witness for C10: a NaN region mean against reference mean 0. -/
theorem nan_comparison_mismatch_witness :
    (mk_result FVal.nan (some (FVal.val 0))).reference_diff = some FVal.nan ∧
    (mk_result FVal.nan (some (FVal.val 0))).classification
      = some Classification.MISMATCH :=
  nan_comparison_mismatch FVal.nan (FVal.val 0) (Or.inl rfl)

/-- Characterisation of `on_release` when a drag is in progress: the finished
rectangle (sorted corners, current color, the drag's canvas id) is appended,
and the reference id becomes the new rectangle's id exactly when the store
was empty. -/
theorem on_release_some_eqs (s : ImageAnalyzer) (x y : Int) (cid : Nat)
    (hcr : s.current_rect = some cid) :
    ((on_release x y s).1).rectangles = s.rectangles ++
      [{ x1 := min (s.start_x.getD 0) x, y1 := min (s.start_y.getD 0) y,
         x2 := max (s.start_x.getD 0) x, y2 := max (s.start_y.getD 0) y,
         color := colors.getD s.current_color_index "", canvas_id := cid }] ∧
    ((on_release x y s).1).reference_rect_id =
      (if s.rectangles.isEmpty then some cid else s.reference_rect_id) := by
  simp [on_release, hcr, update_averages]

/-- C6: after `clear_rectangles` the store holds zero regions and no
reference (id and cached average both reset); the next region added after a
clear becomes the reference; in any reachable state at most one stored region
carries the reference id; and adding a region while the store is non-empty
never reassigns the reference. -/
theorem reference_lifecycle (s : ImageAnalyzer) (h : Reachable s) :
    (clear_rectangles s).1.rectangles = [] ∧
    (clear_rectangles s).1.reference_rect_id = none ∧
    (clear_rectangles s).1.reference_avg = none ∧
    (∀ x y ex ey : Int, ∃ r : Rect,
      ((on_release ex ey (on_press x y (clear_rectangles s).1)).1).rectangles = [r] ∧
      ((on_release ex ey (on_press x y (clear_rectangles s).1)).1).reference_rect_id
        = some r.canvas_id) ∧
    (s.rectangles.filter
      (fun r => s.reference_rect_id == some r.canvas_id)).length ≤ 1 ∧
    (s.rectangles ≠ [] → ∀ x y : Int,
      ((on_release x y s).1).reference_rect_id = s.reference_rect_id) := by
  refine ⟨rfl, rfl, ?_, ?_, ?_, ?_⟩
  · cases him : s.image <;>
      simp [clear_rectangles, update_averages, new_reference_avg, him]
  · intro x y ex ey
    exact ⟨_, rfl, rfl⟩
  · exact filter_id_length_le_one s.rectangles
      (reachable_inv s h).2.1 s.reference_rect_id
  · intro hne x y
    cases hcr : s.current_rect with
    | none => simp [on_release, hcr]
    | some cid =>
      rw [(on_release_some_eqs s x y cid hcr).2]
      cases hl : s.rectangles with
      | nil => exact absurd hl hne
      | cons a t => simp

/-- Witness for C6 at the initial state (reachable by construction). -/
theorem reference_lifecycle_witness :
    (clear_rectangles init_state).1.rectangles = [] ∧
    (init_state.rectangles.filter
      (fun r => init_state.reference_rect_id == some r.canvas_id)).length ≤ 1 :=
  ⟨(reference_lifecycle init_state Reachable.init).1,
   (reference_lifecycle init_state Reachable.init).2.2.2.2.1⟩

/-- C9: every stored rectangle of a reachable state has integer bounds with
`x1 ≤ x2` and `y1 ≤ y2` (sorted at mouse-release time no matter the drag
direction), and stored rectangles are immutable: every handler either leaves
the store untouched or appends one new sorted rectangle at the end. -/
theorem region_bounds_sorted_append_only (s : ImageAnalyzer) (h : Reachable s) :
    (∀ r ∈ s.rectangles, r.x1 ≤ r.x2 ∧ r.y1 ≤ r.y2) ∧
    (∀ x y : Int, (on_press x y s).rectangles = s.rectangles) ∧
    ((update_averages s).1.rectangles = s.rectangles) ∧
    (∀ x y : Int, ((on_release x y s).1).rectangles = s.rectangles ∨
      ∃ t : Rect, ((on_release x y s).1).rectangles = s.rectangles ++ [t] ∧
        t.x1 ≤ t.x2 ∧ t.y1 ≤ t.y2) := by
  have hinv := reachable_inv s h
  refine ⟨fun r hr => (hinv.1 r hr).2, fun x y => rfl, rfl, ?_⟩
  intro x y
  cases hcr : s.current_rect with
  | none =>
    left
    simp [on_release, hcr]
  | some cid =>
    right
    exact ⟨_, (on_release_some_eqs s x y cid hcr).1, min_le_max, min_le_max⟩

/-- Witness for C9 at the initial state (reachable by construction). -/
theorem region_bounds_sorted_append_only_witness :
    (update_averages init_state).1.rectangles = init_state.rectangles :=
  (region_bounds_sorted_append_only init_state Reachable.init).2.2.1
